import Mathlib

/-!
# Verification of the retail loss-prevention detection engine

Shallow embedding of the detection rules of the repository
(`src/detection/reatime_detection.py`, `src/detection/all_detections.py`,
`src/app.py`) together with proofs of the specification claims.

Modelling conventions:
* Python `dict` caches become Lean functions `String → Option _` (for the
  per-rule lookups) or association lists `List (String × _)` (for the cache
  janitor, whose behaviour depends on sizes and orderings).
* Monetary amounts, weights and dwell times (Python floats holding exact
  decimal inputs) become `Rat`; quantities become `Int`; timestamps become
  `Nat`/`Int` seconds.
* A Python `dict.get(k, d)` becomes `Option.getD`; a bare `row['k']` access
  on an optional field becomes a fallible access in the `Except` monad.
-/

/-- One entry of `product_data_cache` as built by `load_product_data`:
price, weight and expected quantity for a SKU (or barcode alias). -/
structure CatalogEntry where
  price : Rat
  weight : Rat
  quantity : Int
deriving DecidableEq, Repr

/-- The static product catalog, `product_data_cache`: SKU/barcode to entry. -/
abbrev Catalog := String → Option CatalogEntry

/-- `product_data_cache.get(sku, {}).get('price', 0)`. -/
def priceOf (cat : Catalog) (sku : String) : Rat :=
  ((cat sku).map CatalogEntry.price).getD 0

/-- `product_data_cache.get(sku, {}).get('weight', 0)`. -/
def weightOf (cat : Catalog) (sku : String) : Rat :=
  ((cat sku).map CatalogEntry.weight).getD 0

/-- `product_data_cache.get(sku, {}).get('quantity', 0)`. -/
def quantityOf (cat : Catalog) (sku : String) : Int :=
  ((cat sku).map CatalogEntry.quantity).getD 0

/-! ## Extended wait rule (`detect_extended_wait_row`) -/

/-- The payload of one queue-monitoring record that the extended-wait rule
reads: `data.average_dwell_time` and `data.customer_count`. -/
structure QueueRow where
  station_id : String
  average_dwell_time : Rat
  customer_count : Int
deriving DecidableEq, Repr

/-- A "Long Wait Time" event as emitted by `detect_extended_wait_row`. -/
structure WaitEvent where
  station_id : String
  wait_time_seconds : Rat
  customer_count : Int
  priority : String
deriving DecidableEq, Repr

/-- `detect_extended_wait_row(queue_row, dwell_threshold=300)`: emit a
"Long Wait Time" event when `average_dwell_time > dwell_threshold`, with
priority `HIGH` when additionally `average_dwell_time > 1.5 * threshold`
and `customer_count > 5`, else `MEDIUM`. -/
def detect_extended_wait_row (dwell_threshold : Rat) (q : QueueRow) :
    Option WaitEvent :=
  if q.average_dwell_time > dwell_threshold then
    some
      { station_id := q.station_id
        wait_time_seconds := q.average_dwell_time
        customer_count := q.customer_count
        priority :=
          if q.average_dwell_time > dwell_threshold * (3 / 2) ∧
              q.customer_count > 5 then "HIGH" else "MEDIUM" }
  else none

/-! ## Inventory discrepancy rule (`detect_inventory_discrepancy_row`) -/

/-- An "Inventory Discrepancy" event as emitted by
`detect_inventory_discrepancy_row`. -/
structure InvEvent where
  sku : String
  expected : Int
  actual : Int
  typ : String
deriving DecidableEq, Repr

/-- The expected quantity computed by the rule:
`product_data_cache.get(sku, {}).get('quantity', 0) - sales_count.get(sku, 0)`. -/
def expectedQty (cat : Catalog) (sales : String → Nat) (sku : String) : Int :=
  quantityOf cat sku - (sales sku : Int)

/-- `detect_inventory_discrepancy_row(inventory_row, tolerance=1)`: for every
SKU of the snapshot, emit an event when `abs(expected - actual) > tolerance`,
typed `Shrinkage` when `actual < expected` and `Overage` otherwise. -/
def detect_inventory_discrepancy_row (cat : Catalog) (sales : String → Nat)
    (tolerance : Int) (snapshot : List (String × Int)) : List InvEvent :=
  snapshot.filterMap fun p =>
    let expected := expectedQty cat sales p.1
    if |expected - p.2| > tolerance then
      some
        { sku := p.1
          expected := expected
          actual := p.2
          typ := if p.2 < expected then "Shrinkage" else "Overage" }
    else none

/-! ## Claim C9: extended wait threshold and priority -/

/-- C9: an Extended Wait ("Long Wait Time") event is emitted iff
`average_dwell_time > 300`; its priority is `HIGH` iff the dwell exceeds
450 (1.5 times the threshold) and `customer_count > 5`, and `MEDIUM`
otherwise; in particular dwell 500 with 3 customers gives one `MEDIUM`
event. -/
theorem C9_extended_wait (q : QueueRow) :
    ((detect_extended_wait_row 300 q).isSome ↔ q.average_dwell_time > 300) ∧
    ((detect_extended_wait_row 300 q).map WaitEvent.priority = some "HIGH" ↔
      q.average_dwell_time > 300 ∧
        (q.average_dwell_time > 450 ∧ q.customer_count > 5)) ∧
    ((detect_extended_wait_row 300 q).map WaitEvent.priority = some "MEDIUM" ↔
      q.average_dwell_time > 300 ∧
        ¬(q.average_dwell_time > 450 ∧ q.customer_count > 5)) ∧
    detect_extended_wait_row 300 ⟨"SCC1", 500, 3⟩ =
      some ⟨"SCC1", 500, 3, "MEDIUM"⟩ := by
  have h32 : (300 : Rat) * (3 / 2) = 450 := by norm_num
  refine ⟨?_, ?_, ?_, by unfold detect_extended_wait_row; norm_num⟩ <;>
    · unfold detect_extended_wait_row
      rw [h32]
      split_ifs with h1 h2 <;> simp_all

/-! ## Claim C1: inventory discrepancy rule -/

theorem inv_events_filter_of_not_mem (cat : Catalog) (sales : String → Nat)
    (tol : Int) (sku : String) (l : List (String × Int))
    (h : sku ∉ l.map Prod.fst) :
    (detect_inventory_discrepancy_row cat sales tol l).filter
      (fun e => e.sku = sku) = [] := by
  induction l with
  | nil => rfl
  | cons p rest ih =>
    simp only [List.map_cons, List.mem_cons, not_or] at h
    unfold detect_inventory_discrepancy_row at *
    simp only [List.filterMap_cons]
    split
    · exact ih h.2
    · next e he =>
      rw [List.filter_cons]
      have hsku : e.sku = p.1 := by
        by_cases hc : |expectedQty cat sales p.1 - p.2| > tol <;>
          (simp [hc] at he; try simp [← he])
      have hb : ¬(e.sku = sku) := by rw [hsku]; exact fun hh => h.1 hh.symm
      rw [if_neg (by simpa using hb)]
      exact ih h.2

/-- C1: for every SKU present in an inventory snapshot (snapshot keys are
distinct, as in a Python dict), the rule computes
`expected = catalog quantity (0 when absent) - cumulative sales count`,
emits exactly one Inventory Discrepancy event for that SKU iff
`|expected - actual| > 1` (the default tolerance), and labels it
`Shrinkage` iff `actual < expected` and `Overage` otherwise. -/
theorem C1_inventory_discrepancy (cat : Catalog) (sales : String → Nat)
    (snapshot : List (String × Int)) (sku : String) (actual : Int)
    (hnd : (snapshot.map Prod.fst).Nodup) (hmem : (sku, actual) ∈ snapshot) :
    (detect_inventory_discrepancy_row cat sales 1 snapshot).filter
        (fun e => e.sku = sku) =
      if |expectedQty cat sales sku - actual| > 1 then
        [{ sku := sku
           expected := expectedQty cat sales sku
           actual := actual
           typ := if actual < expectedQty cat sales sku then "Shrinkage"
                  else "Overage" }]
      else [] := by
  induction snapshot with
  | nil => cases hmem
  | cons p rest ih =>
    simp only [List.map_cons, List.nodup_cons] at hnd
    rcases List.mem_cons.mp hmem with hp | hrest
    · subst hp
      have hrest0 : sku ∉ rest.map Prod.fst := hnd.1
      have htail := inv_events_filter_of_not_mem cat sales 1 sku rest hrest0
      unfold detect_inventory_discrepancy_row at *
      simp only [List.filterMap_cons]
      by_cases hc : |expectedQty cat sales sku - actual| > 1
      · simp only [hc, if_true, List.filter_cons]
        simp [htail, hc]
      · simp [hc, htail]
    · have hne : p.1 ≠ sku := by
        intro he
        exact hnd.1 (he ▸ (List.mem_map_of_mem Prod.fst hrest))
      have := ih hnd.2 hrest
      unfold detect_inventory_discrepancy_row at *
      simp only [List.filterMap_cons]
      split
      · exact this
      · next e he =>
        rw [List.filter_cons]
        have hsku : e.sku = p.1 := by
          by_cases hc : |expectedQty cat sales p.1 - p.2| > 1 <;>
            (simp [hc] at he; try simp [← he])
        have hb : ¬(e.sku = sku) := by rw [hsku]; exact hne
        rw [if_neg (by simpa using hb)]
        exact this

/-- Witness for C1 at a concrete snapshot: catalog quantity 10 for "A",
4 cumulative sales, actual 3, so expected 6 and |6-3| = 3 > 1 gives one
Shrinkage event. -/
theorem C1_inventory_discrepancy_witness :
    ((([("A", (3 : Int))] : List (String × Int)).map Prod.fst).Nodup ∧
      ("A", (3 : Int)) ∈ [("A", (3 : Int))]) ∧
    (detect_inventory_discrepancy_row
        (fun s => if s = "A" then some ⟨5, 100, 10⟩ else none)
        (fun s => if s = "A" then 4 else 0) 1
        [("A", (3 : Int))]).filter (fun e => e.sku = "A") =
      if |expectedQty (fun s => if s = "A" then some ⟨5, 100, 10⟩ else none)
            (fun s => if s = "A" then 4 else 0) "A" - 3| > 1 then
        [{ sku := "A"
           expected := expectedQty
              (fun s => if s = "A" then some ⟨5, 100, 10⟩ else none)
              (fun s => if s = "A" then 4 else 0) "A"
           actual := 3
           typ := if (3 : Int) < expectedQty
                (fun s => if s = "A" then some ⟨5, 100, 10⟩ else none)
                (fun s => if s = "A" then 4 else 0) "A" then "Shrinkage"
              else "Overage" }]
      else [] :=
  ⟨⟨by decide, by decide⟩,
    C1_inventory_discrepancy _ _ _ "A" 3 (by decide) (by decide)⟩

/-! ## RFID path: scanner avoidance (`detect_scan_avoidance_row`,
`update_rfid_cache`, and the batch `detect_scan_avoidance`) -/

/-- One entry of `pos_skus_cache`: customer id and arrival time. -/
structure PosEntry where
  customer_id : String
  arrival : Nat
deriving DecidableEq, Repr

/-- One entry of `rfid_cache`: sku and parsed arrival time. -/
structure RfidEntry where
  sku : String
  arrival : Nat
deriving DecidableEq, Repr

/-- One entry of `product_recognition_cache`: predicted sku and arrival. -/
structure RecogEntry where
  predicted_sku : String
  arrival : Nat
deriving DecidableEq, Repr

/-- One RFID reading: `timestamp`, optional `station_id` (defaulted to
"Unknown" by `.get`), `data.sku` and `data.location`. -/
structure RfidRow where
  timestamp : String
  station_id : Option String
  sku : String
  location : String
deriving DecidableEq, Repr

/-- A "Scanner Avoidance" event. -/
structure ScanEvent where
  station_id : String
  customer_id : Option String
  product_sku : String
deriving DecidableEq, Repr

/-- `detect_scan_avoidance_row(rfid_row)`: flag when the reading's location
is `OUT_SCAN_AREA` and its sku is not in `pos_skus_cache`; the event's
`customer_id` is the literal `None`. -/
def detect_scan_avoidance_row (pos_skus_cache : String → Option PosEntry)
    (r : RfidRow) : Option ScanEvent :=
  if r.location = "OUT_SCAN_AREA" ∧ (pos_skus_cache r.sku).isNone then
    some ⟨r.station_id.getD "Unknown", none, r.sku⟩
  else none

/-- `update_rfid_cache(rfid_row)`: overwrite the entry under key
`f"{timestamp}_{station_id}"` with this reading, unconditionally.
`parse` stands for `parse_timestamp`. -/
def update_rfid_cache (parse : String → Nat)
    (rfid_cache : String → Option RfidEntry) (r : RfidRow) :
    String → Option RfidEntry :=
  fun k =>
    if k = r.timestamp ++ "_" ++ r.station_id.getD "Unknown" then
      some ⟨r.sku, parse r.timestamp⟩
    else rfid_cache k

/-- The `'rfid'` branch of `process_incoming_row`: update the RFID cache,
then run scanner avoidance. -/
def process_rfid_row (parse : String → Nat)
    (pos_skus_cache : String → Option PosEntry)
    (rfid_cache : String → Option RfidEntry) (r : RfidRow) :
    (String → Option RfidEntry) × Option ScanEvent :=
  (update_rfid_cache parse rfid_cache r, detect_scan_avoidance_row pos_skus_cache r)

/-- One POS transaction as read by the batch `detect_scan_avoidance`:
`data.sku` and optional `data.customer_id`. -/
structure PosTx where
  sku : String
  customer_id : Option String
deriving DecidableEq, Repr

/-- The dict comprehension `{t['data']['sku']: t['data'].get('customer_id')
for t in pos_data}` (later transactions overwrite earlier ones): `none`
when the sku never occurs, else the last transaction's customer id. -/
def pos_skus_lookup (pos : List PosTx) (s : String) : Option (Option String) :=
  (pos.reverse.find? (fun t => t.sku = s)).map PosTx.customer_id

/-- The batch `detect_scan_avoidance(rfid_data, pos_data)`: flag every RFID
reading with location `OUT_SCAN_AREA` whose sku is absent from the POS sku
map; the event's customer id is `pos_skus.get(sku)`, looked up under that
same absence guard. -/
def detect_scan_avoidance (rfid_data : List RfidRow) (pos_data : List PosTx) :
    List ScanEvent :=
  rfid_data.filterMap fun tag =>
    if tag.location = "OUT_SCAN_AREA" ∧ (pos_skus_lookup pos_data tag.sku).isNone
    then
      some ⟨tag.station_id.getD "Unknown",
            (pos_skus_lookup pos_data tag.sku).join, tag.sku⟩
    else none

/-! ## Claim C6: scanner avoidance trigger and cache overwrite -/

/-- C6: for every RFID record the real-time engine produces exactly one
Scanner Avoidance event iff location is `OUT_SCAN_AREA` and its sku is
absent from the POS cache at evaluation time; and the RFID cache entry
under key timestamp+station is overwritten with this reading regardless
of whether the event fires. -/
theorem C6_scan_avoidance (parse : String → Nat)
    (pos_skus_cache : String → Option PosEntry)
    (rfid_cache : String → Option RfidEntry) (r : RfidRow) :
    ((process_rfid_row parse pos_skus_cache rfid_cache r).2.isSome ↔
      (r.location = "OUT_SCAN_AREA" ∧ pos_skus_cache r.sku = none)) ∧
    (process_rfid_row parse pos_skus_cache rfid_cache r).1
        (r.timestamp ++ "_" ++ r.station_id.getD "Unknown") =
      some ⟨r.sku, parse r.timestamp⟩ := by
  constructor
  · unfold process_rfid_row detect_scan_avoidance_row
    rcases Classical.em
        (r.location = "OUT_SCAN_AREA" ∧ (pos_skus_cache r.sku).isNone) with
      h | h
    · rw [if_pos h]
      simpa [Option.isNone_iff_eq_none] using h
    · rw [if_neg h]
      simpa [Option.isNone_iff_eq_none] using h
  · unfold process_rfid_row update_rfid_cache
    simp

/-! ## Claim C10: scanner avoidance events carry a null customer id -/

/-- C10: every Scanner Avoidance event of either engine has
`customer_id = None`: the streaming rule hardcodes it and the batch rule
looks the sku up only under the guard that it is absent from the map. -/
theorem C10_scan_customer_id_none :
    (∀ (pos_skus_cache : String → Option PosEntry) (r : RfidRow)
        (e : ScanEvent), detect_scan_avoidance_row pos_skus_cache r = some e →
        e.customer_id = none) ∧
    (∀ (rfid_data : List RfidRow) (pos_data : List PosTx) (e : ScanEvent),
        e ∈ detect_scan_avoidance rfid_data pos_data →
        e.customer_id = none) := by
  constructor
  · intro pos r e he
    unfold detect_scan_avoidance_row at he
    split_ifs at he with h
    injection he with h1
    rw [← h1]
  · intro rfid pos e he
    unfold detect_scan_avoidance at he
    rcases List.mem_filterMap.mp he with ⟨tag, _, htag⟩
    split_ifs at htag with h
    have h2 := Option.isNone_iff_eq_none.mp h.2
    injection htag with h1
    rw [← h1]
    simp [h2]

/-- Witness for C10 at a concrete reading that fires the rule. -/
theorem C10_scan_customer_id_none_witness :
    detect_scan_avoidance_row (fun _ => none)
        ⟨"2025-01-01T00:00:00", none, "S1", "OUT_SCAN_AREA"⟩ =
      some ⟨"Unknown", none, "S1"⟩ ∧
    (⟨"Unknown", (none : Option String), "S1"⟩ : ScanEvent).customer_id = none :=
  ⟨by decide, C10_scan_customer_id_none.1 (fun _ => none)
    ⟨"2025-01-01T00:00:00", none, "S1", "OUT_SCAN_AREA"⟩ _ (by decide)⟩

/-! ## Barcode switching rule (`detect_barcode_switch_row`) -/

/-- Python truthiness of the optional sku strings used in
`if predicted_sku and actual_sku`: `None` and the empty string are falsy. -/
def truthy (o : Option String) : Bool :=
  match o with
  | some s => !(s == "")
  | none => false

/-- The `data` payload of one POS transaction: `barcode`, stated `price`,
`sku`, and optional `customer_id` (defaulted to "Unknown" by `.get`). -/
structure PosRowData where
  barcode : String
  price : Rat
  sku : String
  customer_id : Option String
deriving DecidableEq, Repr

/-- A "Barcode Switching" event. -/
structure SwitchEvent where
  station_id : String
  customer_id : String
  actual_sku : String
  scanned_barcode : String
  scanned_price : Rat
  actual_price : Rat
deriving DecidableEq, Repr

/-- The barcode's resolved price:
`product_data_cache.get(scanned_barcode, {}).get('price', scanned_price)` —
falling back to the transaction's own stated price when the barcode is
not in the catalog. -/
def barcodePriceOf (cat : Catalog) (barcode : String) (scanned_price : Rat) :
    Rat :=
  ((cat barcode).map CatalogEntry.price).getD scanned_price

/-- `detect_barcode_switch_row(pos_row)` (detection logic; the write of
`pos_skus_cache[sku_pos]` that the same function performs is modelled in
the dispatcher): method 1 fires when both a recognition prediction and an
RFID sku are (truthily) present under the `f"{timestamp}_{station_id}"`
key, the resolved barcode price is strictly below the predicted product's
price, and the RFID sku differs from the scanned barcode; otherwise
(`elif`) method 2 fires when the POS sku differs from the scanned barcode,
the resolved sku price differs from the resolved barcode price, and the
resolved sku price is strictly positive. -/
def detect_barcode_switch_row (cat : Catalog)
    (recog_cache : String → Option RecogEntry)
    (rfid_cache : String → Option RfidEntry)
    (timestamp : String) (station_raw : Option String) (d : PosRowData) :
    Option SwitchEvent :=
  let station := station_raw.getD "Unknown"
  let customer := d.customer_id.getD "Unknown"
  let sku_price := priceOf cat d.sku
  let barcode_price := barcodePriceOf cat d.barcode d.price
  let key := timestamp ++ "_" ++ station
  let predicted_sku := (recog_cache key).map RecogEntry.predicted_sku
  let actual_sku := (rfid_cache key).map RfidEntry.sku
  if truthy predicted_sku && truthy actual_sku then
    let aSku := actual_sku.getD ""
    let predicted_price := priceOf cat (predicted_sku.getD "")
    let actual_price := priceOf cat aSku
    if barcode_price < predicted_price ∧ aSku ≠ d.barcode then
      some ⟨station, customer, aSku, d.barcode, barcode_price, actual_price⟩
    else none
  else if d.sku ≠ d.barcode ∧ sku_price ≠ barcode_price ∧ sku_price > 0 then
    some ⟨station, customer, d.sku, d.barcode, barcode_price, sku_price⟩
  else none

/-! ## Claim C3: barcode switching conditions -/

/-- C3 counterexample: a POS transaction whose sku "A1" is absent from the
catalog (resolved sku price 0), barcode "B1" also absent (barcode price
falls back to the stated price 5), with no recognition/RFID correlation
data for its key. The claim's fallback condition holds — the POS sku
differs from the barcode and the resolved prices differ (0 versus 5) —
yet the real-time engine emits no event, because its fallback path also
requires the resolved sku price to be strictly positive. -/
theorem C3_barcode_switch_counterexample :
    detect_barcode_switch_row (fun _ => none) (fun _ => none) (fun _ => none)
        "2025-01-01T00:00:00" (some "SCC1") ⟨"B1", 5, "A1", some "C056"⟩ =
      none ∧
    "A1" ≠ "B1" ∧
    priceOf (fun _ => none) "A1" ≠ barcodePriceOf (fun _ => none) "B1" 5 ∧
    (fun _ => (none : Option RecogEntry)) ("2025-01-01T00:00:00" ++ "_" ++ "SCC1")
      = none ∧
    (fun _ => (none : Option RfidEntry)) ("2025-01-01T00:00:00" ++ "_" ++ "SCC1")
      = none := by
  refine ⟨?_, by decide, by decide, rfl, rfl⟩
  unfold detect_barcode_switch_row
  norm_num [truthy, priceOf, barcodePriceOf]

/-- C3 amended: at most one Barcode Switching event per POS transaction
(the rule returns at most one event); when both a recognition prediction
and an RFID sku are present (truthily) under the transaction's
timestamp+station key, the event fires iff the resolved barcode price is
strictly below the predicted product's price and the RFID sku differs
from the scanned barcode; when that correlation data is unavailable, the
event fires iff the POS sku differs from the scanned barcode, the
resolved sku price differs from the resolved barcode price, AND the
resolved sku price is strictly positive. -/
theorem C3_barcode_switch_amended (cat : Catalog)
    (recog_cache : String → Option RecogEntry)
    (rfid_cache : String → Option RfidEntry)
    (timestamp : String) (station_raw : Option String) (d : PosRowData)
    (key : String) (hkey : key = timestamp ++ "_" ++ station_raw.getD "Unknown") :
    (truthy ((recog_cache key).map RecogEntry.predicted_sku) = true →
      truthy ((rfid_cache key).map RfidEntry.sku) = true →
      ((detect_barcode_switch_row cat recog_cache rfid_cache timestamp
          station_raw d).isSome ↔
        (barcodePriceOf cat d.barcode d.price <
            priceOf cat (((recog_cache key).map RecogEntry.predicted_sku).getD "") ∧
          ((rfid_cache key).map RfidEntry.sku).getD "" ≠ d.barcode))) ∧
    (¬(truthy ((recog_cache key).map RecogEntry.predicted_sku) = true ∧
        truthy ((rfid_cache key).map RfidEntry.sku) = true) →
      ((detect_barcode_switch_row cat recog_cache rfid_cache timestamp
          station_raw d).isSome ↔
        (d.sku ≠ d.barcode ∧
          priceOf cat d.sku ≠ barcodePriceOf cat d.barcode d.price ∧
          priceOf cat d.sku > 0))) := by
  subst hkey
  constructor
  · intro hp ha
    unfold detect_barcode_switch_row
    rw [if_pos (by rw [hp, ha]; rfl)]
    dsimp only
    split_ifs with h
    · simpa using h
    · simpa using h
  · intro hna
    unfold detect_barcode_switch_row
    rw [if_neg (by
      intro hb
      exact hna ⟨(Bool.and_eq_true _ _ ▸ hb).1, (Bool.and_eq_true _ _ ▸ hb).2⟩)]
    split_ifs with h
    · simpa using h
    · simpa using h

/-- Witness for C3 amended, exercising the fallback path at a concrete
transaction: sku "A1" priced 8 in the catalog, barcode "B1" absent
(price falls back to 5), no correlation data, so the event fires. -/
theorem C3_barcode_switch_amended_witness :
    ((detect_barcode_switch_row
        (fun s => if s = "A1" then some ⟨8, 100, 10⟩ else none)
        (fun _ => none) (fun _ => none)
        "2025-01-01T00:00:00" (some "SCC1")
        ⟨"B1", 5, "A1", some "C056"⟩).isSome ↔
      ("A1" ≠ "B1" ∧
        priceOf (fun s => if s = "A1" then some ⟨8, 100, 10⟩ else none) "A1" ≠
          barcodePriceOf (fun s => if s = "A1" then some ⟨8, 100, 10⟩ else none)
            "B1" 5 ∧
        priceOf (fun s => if s = "A1" then some ⟨8, 100, 10⟩ else none) "A1"
          > 0)) :=
  (C3_barcode_switch_amended
      (fun s => if s = "A1" then some ⟨8, 100, 10⟩ else none)
      (fun _ => none) (fun _ => none) "2025-01-01T00:00:00" (some "SCC1")
      ⟨"B1", 5, "A1", some "C056"⟩ _ rfl).2 (by decide)

/-! ## Weight discrepancy rule (`detect_weight_discrepancy_row`) -/

/-- A "Weight Discrepancies" event. -/
structure WeightEvent where
  product_sku : String
  expected_weight : Rat
  actual_weight : Rat
deriving DecidableEq, Repr

/-- `detect_weight_discrepancy_row(pos_row)`: flag when the actual weight
differs from the catalog weight (0 when absent) by more than 5. -/
def detect_weight_discrepancy_row (cat : Catalog) (sku : String)
    (actual_weight : Rat) : Option WeightEvent :=
  if |actual_weight - weightOf cat sku| > 5 then
    some ⟨sku, weightOf cat sku, actual_weight⟩
  else none

/-! ## The `'pos'` branch of `process_incoming_row`, with dict accesses
made explicit -/

/-- A raw incoming POS record, every field as found (or not) in the JSON
dict. `row['k']` on a missing key raises `KeyError` in Python; `require`
models that as `Except.error`. -/
structure RawPosRow where
  timestamp : Option String
  station_id : Option String
  status : Option String
  sku : Option String
  barcode : Option String
  price : Option Rat
  weight_g : Option Rat
  customer_id : Option String
deriving Repr

/-- A bare Python dict access `row['field']`: the value when present,
`KeyError` (carrying the field name) when absent. -/
def require (field : String) : Option α → Except String α
  | some a => Except.ok a
  | none => Except.error field

/-- The `'pos'` branch of `process_incoming_row`, in field-access order:
`update_pos_cache` reads `data['sku']`; `detect_barcode_switch_row` reads
`timestamp`, `data['barcode']`, `data['price']`, `data['sku']` and uses
`.get` for station and customer; `detect_weight_discrepancy_row` reads
`data['weight_g']`; finally `detect_system_error_row` reads
`data_row['status']` unguarded. Any missing required field aborts with
the `KeyError`, which `process_incoming_row` does not catch. Returns the
updated sales count and the three rules' results (the system-error rule's
result abstracted to whether the status is an error status). -/
def process_pos_row (cat : Catalog)
    (recog_cache : String → Option RecogEntry)
    (rfid_cache : String → Option RfidEntry)
    (sales : String → Nat) (row : RawPosRow) :
    Except String
      ((String → Nat) × Option SwitchEvent × Option WeightEvent × Bool) := do
  let sku ← require "sku" row.sku
  let sales1 := fun s => if s = sku then sales s + 1 else sales s
  let timestamp ← require "timestamp" row.timestamp
  let barcode ← require "barcode" row.barcode
  let price ← require "price" row.price
  let bsEvent := detect_barcode_switch_row cat recog_cache rfid_cache
    timestamp row.station_id ⟨barcode, price, sku, row.customer_id⟩
  let weight ← require "weight_g" row.weight_g
  let wEvent := detect_weight_discrepancy_row cat sku weight
  let status ← require "status" row.status
  return (sales1, bsEvent, wEvent,
    status = "Read Error" ∨ status = "System Crash")

/-! ## Claim C2: the dispatcher is not total on records missing `status` -/

/-- C2 (refuting evaluation): a well-formed POS transaction that merely
lacks the optional `status` field makes the `'pos'` branch of
`process_incoming_row` raise `KeyError('status')` —
`detect_system_error_row` reads `data_row['status']` unguarded and no
handler catches it — so processing of the record does not complete. -/
theorem C2_pos_missing_status_raises :
    process_pos_row (fun _ => none) (fun _ => none) (fun _ => none)
        (fun _ => 0)
        { timestamp := some "2025-01-01T00:00:00"
          station_id := some "SCC1"
          status := none
          sku := some "A1"
          barcode := some "A1"
          price := some 5
          weight_g := some 100
          customer_id := some "C056" } = Except.error "status" := rfl


/-! ## System error rule (`detect_system_error_row`), recurring-failure
aggregation -/

/-- The bucket boundary computed by `detect_system_error_row`: zero out
seconds (`replace(second=0, microsecond=0)`), then subtract
`minute-of-hour mod interval_minutes` minutes. Time in seconds. -/
def intervalKey (interval_minutes : Nat) (t : Nat) : Nat :=
  (t - t % 60) - 60 * (t / 60 % 60 % interval_minutes)

/-- The fields of any record that the system-error rule reads. -/
structure ErrRecord where
  status : String
  station : String
  time : Nat
deriving DecidableEq, Repr

/-- `data_row['status'] in ["Read Error", "System Crash"]`. -/
def isErrorStatus (s : String) : Bool :=
  s == "Read Error" || s == "System Crash"

/-- `error_aggregation[station_id][interval_key] += 1` on the defaultdict
of per-station, per-bucket counters. -/
def bump (counts : String → Nat → Nat) (s0 : String) (b0 : Nat) :
    String → Nat → Nat :=
  fun s k => if s = s0 ∧ k = b0 then counts s0 b0 + 1 else counts s k

theorem bump_same (counts : String → Nat → Nat) (s0 : String) (b0 : Nat) :
    bump counts s0 b0 s0 b0 = counts s0 b0 + 1 := by
  unfold bump
  rw [if_pos ⟨rfl, rfl⟩]

theorem bump_other (counts : String → Nat → Nat) (s0 : String) (b0 : Nat)
    (s : String) (b : Nat) (h : ¬(s = s0 ∧ b = b0)) :
    bump counts s0 b0 s b = counts s b := by
  unfold bump
  rw [if_neg h]

/-- One step of `detect_system_error_row`'s aggregation: on an error
record, increment `error_aggregation[station_id][interval_key]` and emit
a "Recurring System Failures" event (identified here by its station and
bucket) exactly when the incremented counter equals the threshold. -/
def sysErrorsStep (interval_minutes recurring_threshold : Nat)
    (counts : String → Nat → Nat) (r : ErrRecord) :
    (String → Nat → Nat) × List (String × Nat) :=
  if isErrorStatus r.status then
    let b := intervalKey interval_minutes r.time
    (bump counts r.station b,
      if counts r.station b + 1 = recurring_threshold then [(r.station, b)]
      else [])
  else (counts, [])

/-- `detect_system_error_row` applied to a stream of records, collecting
the emitted Recurring System Failures events. -/
def runSysErrors (im thr : Nat) (counts : String → Nat → Nat) :
    List ErrRecord → (String → Nat → Nat) × List (String × Nat)
  | [] => (counts, [])
  | r :: rs =>
    let st := sysErrorsStep im thr counts r
    let rest := runSysErrors im thr st.1 rs
    (rest.1, st.2 ++ rest.2)

/-- How many error-status records of the stream fall in station `s`'s
bucket `b`. -/
def errCount (im : Nat) (rs : List ErrRecord) (s : String) (b : Nat) : Nat :=
  (rs.filter (fun r => isErrorStatus r.status ∧ r.station = s ∧
    intervalKey im r.time = b)).length

theorem runSysErrors_count_eq (im thr : Nat) (s : String) (b : Nat) :
    ∀ (rs : List ErrRecord) (counts : String → Nat → Nat),
    (runSysErrors im thr counts rs).2.count (s, b) =
      if counts s b < thr ∧ thr ≤ counts s b + errCount im rs s b then 1
      else 0 := by
  intro rs
  induction rs with
  | nil =>
    intro counts
    simp only [runSysErrors, List.count_nil, errCount, List.filter_nil,
      List.length_nil]
    split_ifs with h
    · omega
    · rfl
  | cons r rs ih =>
    intro counts
    simp only [runSysErrors, List.count_append]
    unfold sysErrorsStep
    by_cases herr : isErrorStatus r.status
    · rw [if_pos herr]
      dsimp only
      rw [ih]
      by_cases hsb : s = r.station ∧ b = intervalKey im r.time
      · obtain ⟨h1, h2⟩ := hsb
        subst h1
        subst h2
        rw [bump_same]
        have hcnt : errCount im (r :: rs) r.station (intervalKey im r.time) =
            errCount im rs r.station (intervalKey im r.time) + 1 := by
          unfold errCount
          rw [List.filter_cons, if_pos (by simp [herr])]
          simp [Nat.add_comm]
        rw [hcnt]
        split_ifs with hc h3 h4 <;>
          simp_all [List.count_singleton', List.count_nil] <;> omega
      · rw [bump_other counts r.station (intervalKey im r.time) s b hsb]
        have hcnt : errCount im (r :: rs) s b = errCount im rs s b := by
          unfold errCount
          rw [List.filter_cons, if_neg (by
            simp only [decide_eq_true_eq]
            rintro ⟨_, hx1, hx2⟩
            exact hsb ⟨hx1.symm, hx2.symm⟩)]
        rw [hcnt]
        have hne : ((s, b) = (r.station, intervalKey im r.time)) = False := by
          simp only [eq_iff_iff, iff_false]
          intro hx
          exact hsb ⟨congrArg Prod.fst hx, congrArg Prod.snd hx⟩
        split_ifs <;> simp_all [List.count_singleton', List.count_nil]
    · rw [if_neg herr]
      dsimp only
      rw [List.count_nil, ih]
      have hcnt : errCount im (r :: rs) s b = errCount im rs s b := by
        unfold errCount
        rw [List.filter_cons, if_neg (by simp [herr])]
      rw [hcnt, Nat.zero_add]

/-! ## Claim C4: recurring system failures are edge-triggered -/

/-- C4: starting from an empty aggregation state, the number of
"Recurring System Failures" events emitted for a given station and
10-minute bucket is 1 as soon as at least 3 (the default threshold)
error-status records fall in that bucket, and 0 otherwise; in particular
exactly 3 such records give exactly one event, emitted when the counter
reaches the threshold and never again on later increments. -/
theorem C4_recurring_failures (rs : List ErrRecord) (s : String) (b : Nat) :
    (runSysErrors 10 3 (fun _ _ => 0) rs).2.count (s, b) =
      if 3 ≤ errCount 10 rs s b then 1 else 0 := by
  rw [runSysErrors_count_eq 10 3 s b rs (fun _ _ => 0)]
  norm_num

/-! ## Long queue rule (`detect_long_queue_row`) -/

/-- `queue_state[station_id]`: the nullable run-start time and the set of
already-flagged run-start times. Times are seconds (`parse_timestamp`
output); flag membership corresponds to the isoformat-keyed set. -/
structure QueueState where
  start : Option Nat
  flagged : List Nat
deriving DecidableEq, Repr

/-- The fields of one queue record the long-queue rule reads. -/
structure QueueRec where
  time : Nat
  count : Int
deriving DecidableEq, Repr

/-- One step of `detect_long_queue_row(queue_row, count_threshold=5,
duration_threshold_seconds=120)` for a single station: above the count
threshold, either open a run (record its start) or, once the elapsed
time from the run start reaches the duration threshold and this run
start is not yet flagged, emit one event and flag it; at or below the
count threshold, reset the run start. The truncated `Nat` difference
agrees with Python's signed difference for the positive default
threshold. -/
def longQueueStep (count_threshold : Int) (duration_threshold : Nat)
    (st : QueueState) (r : QueueRec) : QueueState × Bool :=
  if r.count > count_threshold then
    match st.start with
    | none => ({ st with start := some r.time }, false)
    | some t0 =>
      if duration_threshold ≤ r.time - t0 ∧ t0 ∉ st.flagged then
        ({ st with flagged := t0 :: st.flagged }, true)
      else (st, false)
  else ({ st with start := none }, false)

/-- `detect_long_queue_row` applied to a station's stream of queue
records, counting the emitted "Long Queue Length" events. -/
def runLongQueue (cthr : Int) (dthr : Nat) (st : QueueState) :
    List QueueRec → QueueState × Nat
  | [] => (st, 0)
  | r :: rs =>
    let p := longQueueStep cthr dthr st r
    let rest := runLongQueue cthr dthr p.1 rs
    (rest.1, (if p.2 then 1 else 0) + rest.2)

theorem runLongQueue_open_run (t0 : Nat) (rs : List QueueRec) :
    ∀ (F : List Nat), (∀ r ∈ rs, (5 : Int) < r.count) →
    (runLongQueue 5 120 ⟨some t0, F⟩ rs).2 =
      if t0 ∈ F then 0
      else if ∃ r ∈ rs, t0 + 120 ≤ r.time then 1 else 0 := by
  induction rs with
  | nil =>
    intro F _
    simp [runLongQueue]
  | cons r rs ih =>
    intro F hall
    have hr : (5 : Int) < r.count := hall r (List.mem_cons_self r rs)
    have htail : ∀ x ∈ rs, (5 : Int) < x.count :=
      fun x hx => hall x (List.mem_cons_of_mem r hx)
    simp only [runLongQueue]
    unfold longQueueStep
    rw [if_pos hr]
    dsimp only
    by_cases hcond : 120 ≤ r.time - t0 ∧ t0 ∉ F
    · rw [if_pos hcond]
      simp only [if_true]
      rw [ih (t0 :: F) htail]
      rw [if_pos (List.mem_cons_self t0 F)]
      rw [if_neg hcond.2]
      rw [if_pos ⟨r, List.mem_cons_self r rs, by omega⟩]
    · rw [if_neg hcond]
      simp only [if_false]
      rw [ih F htail,
        show (if false = true then 1 else 0) = 0 from rfl, Nat.zero_add]
      by_cases hF : t0 ∈ F
      · rw [if_pos hF, if_pos hF]
      · rw [if_neg hF, if_neg hF]
        have hrfail : ¬(t0 + 120 ≤ r.time) := by
          intro hx
          exact hcond ⟨by omega, hF⟩
        have hiff : (∃ x ∈ r :: rs, t0 + 120 ≤ x.time) ↔
            (∃ x ∈ rs, t0 + 120 ≤ x.time) := by
          constructor
          · rintro ⟨x, hx, hxt⟩
            rcases List.mem_cons.mp hx with hx0 | hx1
            · exact absurd (hx0 ▸ hxt) hrfail
            · exact ⟨x, hx1, hxt⟩
          · rintro ⟨x, hx, hxt⟩
            exact ⟨x, List.mem_cons_of_mem r hx, hxt⟩
        by_cases hex : ∃ x ∈ rs, t0 + 120 ≤ x.time
        · rw [if_pos hex, if_pos (hiff.mpr hex)]
        · rw [if_neg hex, if_neg (fun hx => hex (hiff.mp hx))]

/-! ## Claim C5: one Long Queue Length event per qualifying run -/

/-- C5: a continuous run of queue records with `customer_count > 5`
(started from an idle state whose flag set does not contain the run
start) yields exactly one "Long Queue Length" event iff some later
record of the run is at least 120 seconds after the run's first record —
further above-threshold records do not re-flag the run; and any record
with `customer_count ≤ 5` resets the run start, so a later fresh run can
be flagged again. -/
theorem C5_long_queue (F : List Nat) (r0 : QueueRec) (rs : List QueueRec)
    (h0 : (5 : Int) < r0.count) (hall : ∀ r ∈ rs, (5 : Int) < r.count)
    (hF : r0.time ∉ F) :
    ((runLongQueue 5 120 ⟨none, F⟩ (r0 :: rs)).2 =
      if ∃ r ∈ rs, r0.time + 120 ≤ r.time then 1 else 0) ∧
    (∀ (st : QueueState) (r : QueueRec), r.count ≤ 5 →
      (longQueueStep 5 120 st r).1.start = none) := by
  constructor
  · simp only [runLongQueue]
    unfold longQueueStep
    rw [if_pos h0]
    dsimp only
    rw [runLongQueue_open_run r0.time rs F hall, if_neg hF]
    simp
  · intro st r hr
    unfold longQueueStep
    rw [if_neg (by omega)]

/-- Witness for C5: a run of two records 150 seconds apart at counts 6
produces exactly one event, and a count-3 record resets the run. -/
theorem C5_long_queue_witness :
    ((runLongQueue 5 120 ⟨none, []⟩ [⟨0, 6⟩, ⟨150, 6⟩]).2 =
      if ∃ r ∈ [(⟨150, 6⟩ : QueueRec)], (0 : Nat) + 120 ≤ r.time then 1
      else 0) ∧
    (∀ (st : QueueState) (r : QueueRec), r.count ≤ 5 →
      (longQueueStep 5 120 st r).1.start = none) :=
  C5_long_queue [] ⟨0, 6⟩ [⟨150, 6⟩] (by decide)
    (by intro r hr; simp at hr; rw [hr]; decide) (by decide)

/-! ## Cache janitor (`cleanup_caches`) and its invocation cadence.

A cache dict is modelled as its list of (key, arrival-timestamp) entries;
timestamps are `Int` seconds so that entries "from the future" (clock
skew) behave as in Python's signed datetime arithmetic. -/

/-- The comparison used by `sorted(cache.items(), key=lambda x:
x[1]['timestamp'])`: order entries by arrival timestamp. -/
def tsLe (a b : String × Int) : Prop := a.2 ≤ b.2

instance : DecidableRel tsLe :=
  fun a b => inferInstanceAs (Decidable (a.2 ≤ b.2))

instance : IsTotal (String × Int) tsLe :=
  ⟨fun a b => Int.le_total a.2 b.2⟩

instance : IsTrans (String × Int) tsLe :=
  ⟨fun _ _ _ h1 h2 => le_trans h1 h2⟩

/-- The age sweep of `cleanup_caches`: delete every entry with
`current_time - entry_timestamp > expiration_threshold`. -/
def removeExpired (now window : Int) (cache : List (String × Int)) :
    List (String × Int) :=
  cache.filter (fun e => ¬(window < now - e.2))

/-- The size sweep of `cleanup_caches`: when the cache holds more than
`maxSize` entries, delete the `len - maxSize` entries with the oldest
arrival timestamps (the head of the timestamp-sorted item list) from the
map. -/
def evictOldest (maxSize : Nat) (l : List (String × Int)) :
    List (String × Int) :=
  if l.length ≤ maxSize then l
  else
    let doomed :=
      ((List.insertionSort tsLe l).take (l.length - maxSize)).map Prod.fst
    l.filter (fun e => e.1 ∉ doomed)

/-- `cleanup_caches` on one cache (the same code is applied to the POS,
RFID, and recognition caches): the age sweep, then the size sweep. -/
def cleanupCache (now window : Int) (maxSize : Nat)
    (cache : List (String × Int)) : List (String × Int) :=
  evictOldest maxSize (removeExpired now window cache)

/-- The cleanup cadence of `process_incoming_row`: `rows_processed` is
incremented on entry and `cleanup_caches()` runs when
`rows_processed % CLEANUP_INTERVAL == 0` (interval 100). `cleanupRuns n`
counts the cleanups performed while processing `n` records. -/
def cleanupRuns : Nat → Nat
  | 0 => 0
  | n + 1 => cleanupRuns n + (if (n + 1) % 100 = 0 then 1 else 0)

theorem mem_of_mem_evictOldest {m : Nat} {l : List (String × Int)}
    {e : String × Int} (h : e ∈ evictOldest m l) : e ∈ l := by
  unfold evictOldest at h
  split_ifs at h
  · exact h
  · exact (List.mem_filter.mp h).1

theorem evictOldest_length_le (m : Nat) (l : List (String × Int))
    (hnd : (l.map Prod.fst).Nodup) : (evictOldest m l).length ≤ m := by
  unfold evictOldest
  split_ifs with hlen
  · exact hlen
  · push_neg at hlen
    dsimp only
    have hperm : (List.insertionSort tsLe l).Perm l :=
      List.perm_insertionSort tsLe l
    have hslen : (List.insertionSort tsLe l).length = l.length :=
      hperm.length_eq
    have hkeys : ((List.insertionSort tsLe l).map Prod.fst).Nodup :=
      ((hperm.map Prod.fst).nodup_iff).mpr hnd
    have hkeys2 :
        (((List.insertionSort tsLe l).map Prod.fst).take (l.length - m) ++
          ((List.insertionSort tsLe l).map Prod.fst).drop
            (l.length - m)).Nodup := by
      rw [List.take_append_drop]
      exact hkeys
    have hdisj := List.disjoint_of_nodup_append hkeys2
    rw [← (hperm.filter _).length_eq]
    have hsplit :
        (List.insertionSort tsLe l).filter
            (fun e => e.1 ∉
              ((List.insertionSort tsLe l).take (l.length - m)).map Prod.fst) =
          ((List.insertionSort tsLe l).take (l.length - m)).filter
            (fun e => e.1 ∉
              ((List.insertionSort tsLe l).take (l.length - m)).map Prod.fst) ++
          ((List.insertionSort tsLe l).drop (l.length - m)).filter
            (fun e => e.1 ∉
              ((List.insertionSort tsLe l).take (l.length - m)).map Prod.fst) := by
      rw [← List.filter_append, List.take_append_drop]
    have htake :
        ((List.insertionSort tsLe l).take (l.length - m)).filter
            (fun e => e.1 ∉
              ((List.insertionSort tsLe l).take (l.length - m)).map Prod.fst) =
          [] := by
      rw [List.filter_eq_nil_iff]
      intro a ha
      have hmem : a.1 ∈
          ((List.insertionSort tsLe l).take (l.length - m)).map Prod.fst :=
        List.mem_map_of_mem Prod.fst ha
      rw [List.map_take] at hmem
      simp [hmem]
    have hdrop :
        ((List.insertionSort tsLe l).drop (l.length - m)).filter
            (fun e => e.1 ∉
              ((List.insertionSort tsLe l).take (l.length - m)).map Prod.fst) =
          (List.insertionSort tsLe l).drop (l.length - m) := by
      rw [List.filter_eq_self]
      intro a ha
      have hmem : a.1 ∈
          ((List.insertionSort tsLe l).map Prod.fst).drop (l.length - m) := by
        rw [← List.map_drop]
        exact List.mem_map_of_mem Prod.fst ha
      have hnottake : a.1 ∉
          ((List.insertionSort tsLe l).take (l.length - m)).map Prod.fst := by
        rw [List.map_take]
        intro hx
        exact hdisj hx hmem
      simpa using hnottake
    rw [hsplit, List.length_append, htake, hdrop, List.length_drop, hslen]
    simp only [List.length_nil]
    omega

theorem evictOldest_dropped_le (m : Nat) (l : List (String × Int))
    (hnd : (l.map Prod.fst).Nodup) :
    ∀ e ∈ l, e ∉ evictOldest m l → ∀ k ∈ evictOldest m l, e.2 ≤ k.2 := by
  intro e hel hnot k hk
  unfold evictOldest at hnot hk
  split_ifs at hnot hk with hlen
  · exact absurd hel hnot
  · push_neg at hlen
    have hperm : (List.insertionSort tsLe l).Perm l :=
      List.perm_insertionSort tsLe l
    have hkeys : ((List.insertionSort tsLe l).map Prod.fst).Nodup :=
      ((hperm.map Prod.fst).nodup_iff).mpr hnd
    have hkeys2 :
        (((List.insertionSort tsLe l).map Prod.fst).take (l.length - m) ++
          ((List.insertionSort tsLe l).map Prod.fst).drop
            (l.length - m)).Nodup := by
      rw [List.take_append_drop]
      exact hkeys
    have hdisj := List.disjoint_of_nodup_append hkeys2
    have hes : e ∈ List.insertionSort tsLe l := hperm.mem_iff.mpr hel
    have hedoomed : e.1 ∈
        ((List.insertionSort tsLe l).take (l.length - m)).map Prod.fst := by
      by_contra hed
      exact hnot (List.mem_filter.mpr ⟨hel, by simpa using hed⟩)
    have hetake : e ∈ (List.insertionSort tsLe l).take (l.length - m) := by
      rcases List.mem_append.mp (by
          rw [List.take_append_drop]
          exact hes :
        e ∈ (List.insertionSort tsLe l).take (l.length - m) ++
          (List.insertionSort tsLe l).drop (l.length - m)) with h1 | h1
      · exact h1
      · exfalso
        have : e.1 ∈
            ((List.insertionSort tsLe l).map Prod.fst).drop (l.length - m) := by
          rw [← List.map_drop]
          exact List.mem_map_of_mem Prod.fst h1
        exact hdisj (by rw [← List.map_take]; exact hedoomed) this
    have hkmem := List.mem_filter.mp hk
    have hknotdoomed : k.1 ∉
        ((List.insertionSort tsLe l).take (l.length - m)).map Prod.fst := by
      simpa using hkmem.2
    have hks : k ∈ List.insertionSort tsLe l := hperm.mem_iff.mpr hkmem.1
    have hkdrop : k ∈ (List.insertionSort tsLe l).drop (l.length - m) := by
      rcases List.mem_append.mp (by
          rw [List.take_append_drop]
          exact hks :
        k ∈ (List.insertionSort tsLe l).take (l.length - m) ++
          (List.insertionSort tsLe l).drop (l.length - m)) with h1 | h1
      · exact absurd (List.mem_map_of_mem Prod.fst h1) hknotdoomed
      · exact h1
    have hsorted : List.Pairwise tsLe (List.insertionSort tsLe l) :=
      List.sorted_insertionSort tsLe l
    rw [← List.take_append_drop (l.length - m) (List.insertionSort tsLe l)]
      at hsorted
    exact (List.pairwise_append.mp hsorted).2.2 e hetake k hkdrop

/-! ## Claim C7: janitor postconditions and cadence -/

/-- C7: after `cleanup_caches` at wall-clock `now`, a cache (keys
distinct, as in a Python dict) contains no entry more than 30 minutes
(1800 s) older than `now`, holds at most 10000 entries, any entry
removed is no newer than every retained entry (excess is evicted
oldest-arrival-first), and the cleanup runs on exactly every 100th
processed record. -/
theorem C7_cleanup_caches (now : Int) (cache : List (String × Int))
    (hnd : (cache.map Prod.fst).Nodup) :
    (∀ e ∈ cleanupCache now 1800 10000 cache, now - e.2 ≤ 1800) ∧
    (cleanupCache now 1800 10000 cache).length ≤ 10000 ∧
    (∀ e ∈ cache, e ∉ cleanupCache now 1800 10000 cache →
      ∀ k ∈ cleanupCache now 1800 10000 cache, e.2 ≤ k.2) ∧
    (∀ n : Nat, cleanupRuns n = n / 100) := by
  have hfreshnd : ((removeExpired now 1800 cache).map Prod.fst).Nodup :=
    hnd.sublist ((List.filter_sublist cache).map Prod.fst)
  have hfreshmem : ∀ e ∈ removeExpired now 1800 cache, now - e.2 ≤ 1800 := by
    intro e he
    have hcond := (List.mem_filter.mp he).2
    rw [decide_eq_true_eq] at hcond
    omega
  refine ⟨?_, ?_, ?_, ?_⟩
  · intro e he
    exact hfreshmem e (mem_of_mem_evictOldest he)
  · exact evictOldest_length_le 10000 (removeExpired now 1800 cache) hfreshnd
  · intro e hecache henot k hk
    by_cases hef : e ∈ removeExpired now 1800 cache
    · exact evictOldest_dropped_le 10000 (removeExpired now 1800 cache)
        hfreshnd e hef henot k hk
    · have hold : 1800 < now - e.2 := by
        by_contra hx
        exact hef (List.mem_filter.mpr ⟨hecache, by simpa using hx⟩)
      have hknew : now - k.2 ≤ 1800 := hfreshmem k (mem_of_mem_evictOldest hk)
      omega
  · intro n
    induction n with
    | zero => rfl
    | succ n ih =>
      unfold cleanupRuns
      rw [ih]
      split_ifs with h
      · omega
      · omega

/-- Witness for C7 at a concrete two-entry cache. -/
theorem C7_cleanup_caches_witness :
    (∀ e ∈ cleanupCache 2000 1800 10000 [("a", 100), ("b", 1999)],
      (2000 : Int) - e.2 ≤ 1800) ∧
    (cleanupCache 2000 1800 10000 [("a", 100), ("b", 1999)]).length ≤ 10000 ∧
    (∀ e ∈ [(("a" : String), (100 : Int)), ("b", 1999)],
      e ∉ cleanupCache 2000 1800 10000 [("a", 100), ("b", 1999)] →
      ∀ k ∈ cleanupCache 2000 1800 10000 [("a", 100), ("b", 1999)],
        e.2 ≤ k.2) ∧
    (∀ n : Nat, cleanupRuns n = n / 100) :=
  C7_cleanup_caches 2000 [("a", 100), ("b", 1999)] (by decide)

/-! ## Event sink deduplication (batch engine main loop; the same keys,
concatenated in a different order, are used by
`RealTimeDetectionApp._deduplicate_events`) -/

/-- The event fields used to build deduplication keys; fields read with
`.get(..., '')` default to the empty string. -/
structure BatchEvent where
  timestamp : String
  event_name : String
  station_id : String
  customer_id : String
  actual_sku : String
  sku : String
deriving DecidableEq, Repr

/-- The per-type dedup key: Inventory Discrepancy events key on
(event name, SKU, timestamp); Barcode Switching events on (event name,
station id, customer id, actual sku, timestamp); every other event type
on (event name, station id, timestamp) — built as an underscore-joined
string as in the code. -/
def eventKey (e : BatchEvent) : String :=
  if e.event_name = "Inventory Discrepancy" then
    e.timestamp ++ "_" ++ e.event_name ++ "_" ++ e.sku
  else if e.event_name = "Barcode Switching" then
    e.timestamp ++ "_" ++ e.event_name ++ "_" ++ e.station_id ++ "_" ++
      e.customer_id ++ "_" ++ e.actual_sku
  else
    e.timestamp ++ "_" ++ e.event_name ++ "_" ++ e.station_id

/-- The dedup loop with its running `seen_events` set: an event whose key
was already seen is dropped silently, otherwise it is kept and its key
recorded. -/
def dedupAux (seen : List String) : List BatchEvent → List BatchEvent
  | [] => []
  | e :: rest =>
    if eventKey e ∈ seen then dedupAux seen rest
    else e :: dedupAux (eventKey e :: seen) rest

/-- The `seen_events` set after the dedup loop processes a list. -/
def seenAfter (seen : List String) : List BatchEvent → List String
  | [] => seen
  | e :: rest =>
    if eventKey e ∈ seen then seenAfter seen rest
    else seenAfter (eventKey e :: seen) rest

/-- The batch engine's dedup pass, starting from an empty seen set. -/
def dedupEvents (l : List BatchEvent) : List BatchEvent := dedupAux [] l

theorem mem_seenAfter_of_mem_seen (l : List BatchEvent) :
    ∀ (seen : List String) (s : String), s ∈ seen → s ∈ seenAfter seen l := by
  induction l with
  | nil => intro seen s hs; exact hs
  | cons e rest ih =>
    intro seen s hs
    unfold seenAfter
    split_ifs with h
    · exact ih seen s hs
    · exact ih (eventKey e :: seen) s (List.mem_cons_of_mem _ hs)

theorem key_mem_seenAfter (l : List BatchEvent) :
    ∀ (seen : List String) (e : BatchEvent), e ∈ l →
      eventKey e ∈ seenAfter seen l := by
  induction l with
  | nil => intro _ _ h; cases h
  | cons f rest ih =>
    intro seen e he
    unfold seenAfter
    rcases List.mem_cons.mp he with rfl | hrest
    · split_ifs with h
      · exact mem_seenAfter_of_mem_seen rest seen _ h
      · exact mem_seenAfter_of_mem_seen rest _ _ (List.mem_cons_self _ _)
    · split_ifs with h
      · exact ih seen e hrest
      · exact ih (eventKey f :: seen) e hrest

theorem dedupAux_append (l : List BatchEvent) :
    ∀ (seen : List String) (m : List BatchEvent),
      dedupAux seen (l ++ m) = dedupAux seen l ++ dedupAux (seenAfter seen l) m := by
  induction l with
  | nil => intro seen m; rfl
  | cons e rest ih =>
    intro seen m
    simp only [List.cons_append, dedupAux, seenAfter]
    split_ifs with h
    · exact ih seen m
    · rw [show rest.append m = rest ++ m from rfl,
        ih (eventKey e :: seen) m, List.cons_append]

theorem dedupAux_eq_nil_of_all_seen (m : List BatchEvent) :
    ∀ (seen : List String), (∀ e ∈ m, eventKey e ∈ seen) →
      dedupAux seen m = [] := by
  induction m with
  | nil => intro _ _; rfl
  | cons e rest ih =>
    intro seen hall
    unfold dedupAux
    rw [if_pos (hall e (List.mem_cons_self e rest))]
    exact ih seen (fun x hx => hall x (List.mem_cons_of_mem e hx))

theorem dedupAux_keys_nodup (l : List BatchEvent) :
    ∀ (seen : List String),
      ((dedupAux seen l).map eventKey).Nodup ∧
        ∀ e ∈ dedupAux seen l, eventKey e ∉ seen := by
  induction l with
  | nil => intro seen; exact ⟨List.nodup_nil, fun e he => absurd he (by simp [dedupAux])⟩
  | cons e rest ih =>
    intro seen
    unfold dedupAux
    split_ifs with h
    · exact ih seen
    · obtain ⟨ihnd, ihseen⟩ := ih (eventKey e :: seen)
      constructor
      · rw [List.map_cons, List.nodup_cons]
        refine ⟨?_, ihnd⟩
        intro hx
        rcases List.mem_map.mp hx with ⟨f, hf, hkey⟩
        exact ihseen f hf (hkey ▸ List.mem_cons_self _ _)
      · intro f hf
        rcases List.mem_cons.mp hf with rfl | hf1
        · exact h
        · exact fun hx => ihseen f hf1 (List.mem_cons_of_mem _ hx)

/-! ## Claim C8: deduplication is idempotent and single-per-key -/

/-- C8: the batch dedup pass keeps at most one event per key (the kept
events' keys are pairwise distinct), and a second copy of the input
contributes nothing: deduplicating `l ++ l` gives exactly the output of
deduplicating `l`. -/
theorem C8_dedup_idempotent (l : List BatchEvent) :
    dedupEvents (l ++ l) = dedupEvents l ∧
    ((dedupEvents l).map eventKey).Nodup := by
  constructor
  · unfold dedupEvents
    rw [dedupAux_append l [] l]
    rw [dedupAux_eq_nil_of_all_seen l (seenAfter [] l)
      (fun e he => key_mem_seenAfter l [] e he)]
    rw [List.append_nil]
  · exact (dedupAux_keys_nodup l []).1
